import Mathlib

/-!
Shallow embedding of the Hkitchen recipe-generation and persistence pipeline:
the zod `RecipeSchema` validator and `generateRecipes` (server/openai.ts),
the `DatabaseStorage` operations over `user_favorites`, `recipes` and
`inventory_items` (server/storage.ts, shared/schema.ts), and the Express
route handlers (server/routes.ts).

JavaScript numbers are modelled as rationals (`ℚ`); external JS builtins
(`JSON.parse`, `Number`-from-string, `Number.prototype.toString`) are
modelled as explicit function parameters, since they are runtime
collaborators, not code of this repository.
-/

namespace Hkitchen

/-- JSON values, the possible results of `JSON.parse`. An object is a list of
key/value pairs (first occurrence wins on lookup, as JS object keys are
unique). -/
inductive Json where
  | null
  | bool (b : Bool)
  | num (q : ℚ)
  | str (s : String)
  | arr (elems : List Json)
  | obj (fields : List (String × Json))

/-- First value bound to key `k` in an object's field list (JS property
lookup); `none` models `undefined`. -/
def Json.lookupField (fields : List (String × Json)) (k : String) : Option Json :=
  match fields with
  | [] => none
  | (k', v) :: rest => if k' = k then some v else Json.lookupField rest k

/-- JavaScript truthiness of a JSON value. -/
def Json.truthy : Json → Bool
  | .null => false
  | .bool b => b
  | .num q => q ≠ 0
  | .str s => s ≠ ""
  | .arr _ => true
  | .obj _ => true

/-- In-memory recipe ingredient, the output type of the zod ingredient
schema in server/openai.ts: after validation `unit` is a `String`, never
null. -/
structure RecipeIngredient where
  name : String
  quantity : String
  unit : String
  inInventory : Bool
deriving Repr, DecidableEq

/-- In-memory recipe instruction (`{ step: number, instruction: string }`). -/
structure RecipeInstruction where
  step : ℚ
  instruction : String
deriving Repr, DecidableEq

/-- In-memory validated recipe, the `Recipe` interface of server/openai.ts. -/
structure Recipe where
  title : String
  description : String
  cookTime : ℚ
  difficulty : String
  servings : ℚ
  ingredients : List RecipeIngredient
  instructions : List RecipeInstruction
  matchedIngredients : ℚ
  totalIngredients : ℚ
  tags : List String
deriving Repr, DecidableEq

/-- Zod `z.string()` applied to a looked-up field (`none` = field absent). -/
def zString (v : Option Json) : Except String String :=
  match v with
  | some (.str s) => .ok s
  | _ => .error "Expected string"

/-- Zod `z.number()` applied to a looked-up field. -/
def zNumber (v : Option Json) : Except String ℚ :=
  match v with
  | some (.num q) => .ok q
  | _ => .error "Expected number"

/-- Zod `z.boolean()` applied to a looked-up field. -/
def zBoolean (v : Option Json) : Except String Bool :=
  match v with
  | some (.bool b) => .ok b
  | _ => .error "Expected boolean"

/-- Zod `z.string().nullable().transform(val => val \x7c\x7c "")`: accepts a string
or `null`; `null` (and the falsy empty string) becomes `""`. Absent fields
and other types are rejected. -/
def zUnit (v : Option Json) : Except String String :=
  match v with
  | some .null => .ok ""
  | some (.str s) => .ok (if s = "" then "" else s)
  | _ => .error "Expected string or null (unit)"

/-- The ingredient object schema inside `RecipeSchema`. -/
def validateIngredient (j : Json) : Except String RecipeIngredient :=
  match j with
  | .obj fs => do
    let name ← (zString (Json.lookupField fs "name")).mapError ("name: " ++ ·)
    let quantity ← (zString (Json.lookupField fs "quantity")).mapError ("quantity: " ++ ·)
    let u ← (zUnit (Json.lookupField fs "unit")).mapError ("unit: " ++ ·)
    let inInv ← (zBoolean (Json.lookupField fs "inInventory")).mapError ("inInventory: " ++ ·)
    .ok ⟨name, quantity, u, inInv⟩
  | _ => .error "Expected object (ingredient)"

/-- The instruction object schema inside `RecipeSchema`. -/
def validateInstruction (j : Json) : Except String RecipeInstruction :=
  match j with
  | .obj fs => do
    let step ← (zNumber (Json.lookupField fs "step")).mapError ("step: " ++ ·)
    let instruction ← (zString (Json.lookupField fs "instruction")).mapError ("instruction: " ++ ·)
    .ok ⟨step, instruction⟩
  | _ => .error "Expected object (instruction)"

/-- Zod `z.array(elemSchema)` over the elements of an array, recording the index
of the first offending element in the error message. -/
def zArrayFrom (f : Json → Except String α) (i : ℕ) : List Json → Except String (List α)
  | [] => .ok []
  | x :: xs =>
    match f x with
    | .error e => .error (toString i ++ "." ++ e)
    | .ok a =>
      match zArrayFrom f (i + 1) xs with
      | .error e => .error e
      | .ok as => .ok (a :: as)

/-- Zod `z.array(z.string())` for `tags`. -/
def validateTag (j : Json) : Except String String :=
  match j with
  | .str s => .ok s
  | _ => .error "Expected string (tag)"

/-- Embedding of `RecipeSchema` from server/openai.ts. -/
def validateRecipe (j : Json) : Except String Recipe :=
  match j with
  | .obj fs => do
    let title ← (zString (Json.lookupField fs "title")).mapError ("title: " ++ ·)
    let description ← (zString (Json.lookupField fs "description")).mapError ("description: " ++ ·)
    let cookTime ← (zNumber (Json.lookupField fs "cookTime")).mapError ("cookTime: " ++ ·)
    let difficulty ← (zString (Json.lookupField fs "difficulty")).mapError ("difficulty: " ++ ·)
    let servings ← (zNumber (Json.lookupField fs "servings")).mapError ("servings: " ++ ·)
    let ingJson ← match Json.lookupField fs "ingredients" with
      | some (.arr xs) => .ok xs
      | _ => .error "ingredients: Expected array"
    let ingredients ← (zArrayFrom validateIngredient 0 ingJson).mapError ("ingredients." ++ ·)
    let instrJson ← match Json.lookupField fs "instructions" with
      | some (.arr xs) => .ok xs
      | _ => .error "instructions: Expected array"
    let instructions ← (zArrayFrom validateInstruction 0 instrJson).mapError ("instructions." ++ ·)
    let matched ← (zNumber (Json.lookupField fs "matchedIngredients")).mapError ("matchedIngredients: " ++ ·)
    let total ← (zNumber (Json.lookupField fs "totalIngredients")).mapError ("totalIngredients: " ++ ·)
    let tagsJson ← match Json.lookupField fs "tags" with
      | some (.arr xs) => .ok xs
      | _ => .error "tags: Expected array"
    let tags ← (zArrayFrom validateTag 0 tagsJson).mapError ("tags." ++ ·)
    .ok ⟨title, description, cookTime, difficulty, servings, ingredients, instructions, matched, total, tags⟩
  | _ => .error "Expected object (recipe)"

/-- Embedding of `RecipesResponseSchema = z.array(RecipeSchema)`. -/
def recipesResponseParse (j : Json) : Except String (List Recipe) :=
  match j with
  | .arr xs => zArrayFrom validateRecipe 0 xs
  | _ => .error "Expected array (recipes)"

/-- JS property access `parsedContent.recipes`: throws on `null`, is
`undefined` (`none`) on non-objects and on objects without the key. -/
def recipesProperty : Json → Except String (Option Json)
  | .null => .error "Cannot read properties of null"
  | .obj fs => .ok (Json.lookupField fs "recipes")
  | _ => .ok none

/-- Embedding of `const recipesArray = parsedContent.recipes \x7c\x7c parsedContent`. -/
def pickRecipesArray (parsed : Json) : Except String Json := do
  let prop ← recipesProperty parsed
  match prop with
  | some v => .ok (if v.truthy then v else parsed)
  | none => .ok parsed

/-- Validation applied to the parsed payload exactly as `generateRecipes`
does: unwrap an optional `recipes` property, then `RecipesResponseSchema.parse`. -/
def validateTopLevel (parsed : Json) : Except String (List Recipe) := do
  let recipesArray ← pickRecipesArray parsed
  recipesResponseParse recipesArray

/-- The body of `generateRecipes` from the point the model response content
is extracted (`response.choices[0].message.content`, modelled as
`Option String`: `none` for null content). `jsonParse` models the JS
`JSON.parse` builtin, returning the thrown message on failure. -/
def generateRecipesCore (jsonParse : String → Except String Json)
    (content : Option String) : Except String (List Recipe) := do
  let c ← match content with
    | none => Except.error "Empty response from OpenAI"
    | some s =>
      if s = "" then Except.error "Empty response from OpenAI" else Except.ok s
  let parsed ← jsonParse c
  validateTopLevel parsed

/-- Embedding of `generateRecipes`: any thrown error is caught and re-thrown as
`Failed to generate recipes: <message>`. -/
def generateRecipes (jsonParse : String → Except String Json)
    (content : Option String) : Except String (List Recipe) :=
  match generateRecipesCore jsonParse content with
  | .ok rs => .ok rs
  | .error m => .error ("Failed to generate recipes: " ++ m)

/-! ## Relational store (shared/schema.ts tables, server/storage.ts `DatabaseStorage`)

The `user_favorites` table is a list of rows (duplicates possible at the
type level; the serial primary key is irrelevant to the claims), `recipes`
and `inventory_items` are lists of rows with serial ids modelled by
counters. -/

/-- A `user_favorites` row: `{ userId, recipeId }` beyond its serial id. -/
structure FavRow where
  userId : ℕ
  recipeId : ℕ
deriving Repr, DecidableEq

/-- A `recipes` table row: `ingredients` and `instructions` are stored as
JSON text. -/
structure StoredRecipe where
  id : ℕ
  title : String
  description : String
  imageUrl : Option String
  cookTime : ℚ
  difficulty : String
  servings : ℚ
  instructions : String
  ingredients : String
  matchedIngredients : ℚ
  totalIngredients : ℚ
  tags : List String
deriving Repr, DecidableEq

/-- An `inventory_items` row. -/
structure InventoryItemRec where
  id : ℕ
  userId : ℕ
  name : String
  quantity : String
  unit : String
deriving Repr, DecidableEq

/-- The relational store state. -/
structure Db where
  recipes : List StoredRecipe
  favorites : List FavRow
  inventory : List InventoryItemRec
  nextRecipeId : ℕ
  nextInventoryId : ℕ
deriving Repr, DecidableEq

/-- The insert shape handed to `storage.createRecipe` by the generation
route: the validated recipe spread with `ingredients`/`instructions`
replaced by their serialized text. -/
structure InsertRecipe where
  title : String
  description : String
  cookTime : ℚ
  difficulty : String
  servings : ℚ
  ingredients : String
  instructions : String
  matchedIngredients : ℚ
  totalIngredients : ℚ
  tags : List String
deriving Repr, DecidableEq

/-- A recipe as returned to callers of the storage layer: the row plus the
transient `isFavorite` annotation (`none` when the field is absent). -/
structure RecipeOut where
  row : StoredRecipe
  isFavorite : Option Bool
deriving Repr, DecidableEq

namespace DatabaseStorage

/-- Whether a favorites row matches the `(recipeId, userId)` pair, the
`where(and(eq(recipeId), eq(userId)))` condition. -/
def favMatches (recipeId userId : ℕ) (f : FavRow) : Bool :=
  f.recipeId == recipeId && f.userId == userId

/-- Existence check against the Favorite relation for one pair. -/
def favMem (db : Db) (recipeId userId : ℕ) : Bool :=
  db.favorites.any (favMatches recipeId userId)

/-- Embedding of `select().from(recipes).where(eq(recipes.id, id))`, first row. -/
def getRecipeRow (id : ℕ) (db : Db) : Option StoredRecipe :=
  db.recipes.find? (fun r => r.id == id)

/-- Embedding of `DatabaseStorage.getRecipe(id, userId?)`: returns the bare row when the
row is missing or `userId` is falsy (absent or `0`), otherwise annotates
`isFavorite` by an existence check. -/
def getRecipe (id : ℕ) (userId : Option ℕ) (db : Db) : Option RecipeOut :=
  match getRecipeRow id db with
  | none => none
  | some r =>
    match userId with
    | none => some ⟨r, none⟩
    | some u =>
      if u == 0 then some ⟨r, none⟩
      else some ⟨r, some (favMem db id u)⟩

/-- Embedding of `DatabaseStorage.createRecipe`: inserts a row (serial id) and returns it
with `isFavorite: false`. `imageUrl` is not supplied by the generation
route. -/
def createRecipe (ins : InsertRecipe) (db : Db) : RecipeOut × Db :=
  let row : StoredRecipe :=
    ⟨db.nextRecipeId, ins.title, ins.description, none, ins.cookTime, ins.difficulty,
      ins.servings, ins.instructions, ins.ingredients, ins.matchedIngredients,
      ins.totalIngredients, ins.tags⟩
  (⟨row, some false⟩, { db with recipes := db.recipes ++ [row], nextRecipeId := db.nextRecipeId + 1 })

/-- Embedding of `DatabaseStorage.deleteRecipe`: first deletes all favorite rows for the
recipe, then the recipe row itself. -/
def deleteRecipe (id : ℕ) (db : Db) : Db :=
  { db with
    favorites := db.favorites.filter (fun f => !(f.recipeId == id)),
    recipes := db.recipes.filter (fun r => !(r.id == id)) }

/-- Embedding of `DatabaseStorage.toggleFavoriteRecipe`: `undefined` when the recipe does
not resolve; otherwise removes the favorite row(s) for the pair if one
exists (returning `isFavorite: false`) or inserts one (returning
`isFavorite: true`). -/
def toggleFavoriteRecipe (recipeId userId : ℕ) (db : Db) : Option RecipeOut × Db :=
  match getRecipe recipeId (some userId) db with
  | none => (none, db)
  | some recipe =>
    if db.favorites.any (favMatches recipeId userId) then
      (some ⟨recipe.row, some false⟩,
        { db with favorites := db.favorites.filter (fun f => !(favMatches recipeId userId f)) })
    else
      (some ⟨recipe.row, some true⟩,
        { db with favorites := db.favorites ++ [⟨userId, recipeId⟩] })

/-- Embedding of `DatabaseStorage.getInventoryItems(userId)` with a truthy user id. -/
def getInventoryItems (userId : ℕ) (db : Db) : List InventoryItemRec :=
  if userId == 0 then db.inventory
  else db.inventory.filter (fun i => i.userId == userId)

/-- Embedding of `DatabaseStorage.createInventoryItem`: inserts a row with a serial id
and returns it. -/
def createInventoryItem (userId : ℕ) (name quantity unit : String) (db : Db) :
    InventoryItemRec × Db :=
  let row : InventoryItemRec := ⟨db.nextInventoryId, userId, name, quantity, unit⟩
  (row, { db with inventory := db.inventory ++ [row], nextInventoryId := db.nextInventoryId + 1 })

end DatabaseStorage

/-- One storage operation, as invokable from the route layer. Read
operations are listed because the reachability claim ranges over them; they
do not change the state. -/
inductive StorageOp where
  | toggleFavorite (recipeId userId : ℕ)
  | createRecipe (ins : InsertRecipe)
  | deleteRecipe (id : ℕ)
  | createInventoryItem (userId : ℕ) (name quantity unit : String)
  | getRecipeOp (id : ℕ) (userId : Option ℕ)
  | getRecipesOp
  | getFavoriteRecipesOp (userId : ℕ)
  | getInventoryItemsOp (userId : ℕ)
deriving Repr, DecidableEq

/-- State transition of one storage operation (reads leave the state
unchanged). -/
def applyOp (db : Db) : StorageOp → Db
  | .toggleFavorite recipeId userId => (DatabaseStorage.toggleFavoriteRecipe recipeId userId db).2
  | .createRecipe ins => (DatabaseStorage.createRecipe ins db).2
  | .deleteRecipe id => DatabaseStorage.deleteRecipe id db
  | .createInventoryItem u n q un => (DatabaseStorage.createInventoryItem u n q un db).2
  | .getRecipeOp _ _ => db
  | .getRecipesOp => db
  | .getFavoriteRecipesOp _ => db
  | .getInventoryItemsOp _ => db

/-- Sequential application of storage operations. -/
def applyOps (db : Db) (ops : List StorageOp) : Db :=
  ops.foldl applyOp db

/-- The §3 invariant: at most one Favorite row per `(userId, recipeId)`
pair. -/
def FavUnique (db : Db) : Prop :=
  ∀ u r : ℕ, db.favorites.countP (fun f => f.userId == u && f.recipeId == r) ≤ 1

/-! ## Route handlers (server/routes.ts) and the inventory form schema
(shared/schema.ts, the revision with the `user_favorites` table and the
string-valued quantity, which is the one the server storage layer
imports). -/

/-- Outcome of an Express handler: a JSON body or a status/error pair. -/
inductive HttpResult (α : Type) where
  | ok (value : α)
  | err (status : ℕ) (message : String)
deriving Repr, DecidableEq

/-- Embedding of `\x7b...recipe, ingredients: JSON.stringify(...), instructions:
JSON.stringify(...)}` in the generation route. The two serializers model
the `JSON.stringify` builtin applied to the structured lists. -/
def recipeToSave (strIng : List RecipeIngredient → String)
    (strInstr : List RecipeInstruction → String) (r : Recipe) : InsertRecipe :=
  ⟨r.title, r.description, r.cookTime, r.difficulty, r.servings,
    strIng r.ingredients, strInstr r.instructions,
    r.matchedIngredients, r.totalIngredients, r.tags⟩

/-- The batch-save loop of the generation route: each candidate is saved in
its own `try/catch`; a failed save yields `null` and the `null`s are
filtered out. `save` models the outcome of `storage.createRecipe` for the
call at each position of the batch (`none` = the save threw). -/
def persistBatch (save : ℕ → InsertRecipe → Option StoredRecipe)
    (strIng : List RecipeIngredient → String)
    (strInstr : List RecipeInstruction → String)
    (rs : List Recipe) : List StoredRecipe :=
  ((rs.enum).map (fun p => save p.1 (recipeToSave strIng strInstr p.2))).filterMap id

/-- One line of the prompt's inventory enumeration in `generateRecipes`:
`` `${item.name}: ${item.quantity} ${item.unit}` ``. -/
def formatInventoryItem (item : InventoryItemRec) : String :=
  item.name ++ ": " ++ item.quantity ++ " " ++ item.unit

/-- Embedding of `inventoryItems.map(...).join("\n")`. -/
def formattedItems (items : List InventoryItemRec) : String :=
  String.intercalate "\n" (items.map formatInventoryItem)

/-- Handler of `POST /api/recipes/generate`: resolve the user's inventory, reject an
empty inventory with a 400 before any generation, otherwise invoke the
generation client and persist the batch. `gen` is the generation client
(already embedded as `generateRecipes`; any failure surfaces as the single
500); `save` as in `persistBatch`. -/
def generateRouteHandler (gen : List InventoryItemRec → Except String (List Recipe))
    (save : ℕ → InsertRecipe → Option StoredRecipe)
    (strIng : List RecipeIngredient → String)
    (strInstr : List RecipeInstruction → String)
    (userId : Option ℕ) (db : Db) : HttpResult (List StoredRecipe) × Db :=
  match userId with
  | none => (.err 401 "User not authenticated", db)
  | some u =>
    if u == 0 then (.err 401 "User not authenticated", db)
    else
      let inventoryItems := DatabaseStorage.getInventoryItems u db
      if inventoryItems.length == 0 then
        (.err 400 "No inventory items found. Please add some ingredients first.", db)
      else
        match gen inventoryItems with
        | .error _ =>
          (.err 500 "Failed to generate recipes. Please check your OpenAI API key and try again.", db)
        | .ok recipes =>
          let validRecipes := persistBatch save strIng strInstr recipes
          (.ok validRecipes, { db with recipes := db.recipes ++ validRecipes })

/-- A recipe formatted for a response: the stored row with
`ingredients`/`instructions` parsed back from their JSON text. -/
structure FormattedRecipe where
  row : StoredRecipe
  isFavorite : Option Bool
  ingredients : Json
  instructions : Json

/-- Embedding of `\x7b...recipe, ingredients: JSON.parse(recipe.ingredients), instructions:
JSON.parse(recipe.instructions)}` for one recipe; a parse failure throws. -/
def formatRecipe (jsonParse : String → Except String Json) (r : RecipeOut) :
    Except String FormattedRecipe := do
  let ings ← jsonParse r.row.ingredients
  let instrs ← jsonParse r.row.instructions
  .ok ⟨r.row, r.isFavorite, ings, instrs⟩

/-- Embedding of `recipes.map(...)` with JSON.parse inside: the first throw aborts the
whole mapping (and hence the whole handler). -/
def formatAll (jsonParse : String → Except String Json) :
    List RecipeOut → Except String (List FormattedRecipe)
  | [] => .ok []
  | r :: rs =>
    match formatRecipe jsonParse r with
    | .error e => .error e
    | .ok fr =>
      match formatAll jsonParse rs with
      | .error e => .error e
      | .ok frs => .ok (fr :: frs)

/-- Handler of `GET /api/recipes`: formats every stored recipe; one corrupt record
makes the whole request fail with the handler's catch-all 500. -/
def getRecipesHandler (jsonParse : String → Except String Json) (db : Db) :
    HttpResult (List FormattedRecipe) :=
  match formatAll jsonParse (db.recipes.map (fun r => ⟨r, none⟩)) with
  | .ok frs => .ok frs
  | .error _ => .err 500 "Failed to retrieve recipes"

/-- Handler of `GET /api/recipes/:id`: 404 when the id does not resolve; a parse
failure of the stored text becomes the catch-all 500. -/
def getRecipeByIdHandler (jsonParse : String → Except String Json)
    (id : ℕ) (userId : Option ℕ) (db : Db) : HttpResult FormattedRecipe :=
  match DatabaseStorage.getRecipe id userId db with
  | none => .err 404 "Recipe not found"
  | some recipe =>
    match formatRecipe jsonParse recipe with
    | .ok fr => .ok fr
    | .error _ => .err 500 "Failed to retrieve recipe"

/-! ### Inventory form schema (`inventoryFormSchema`) -/

/-- The request body of the inventory routes, as parsed JSON fields. -/
structure RawInventoryBody where
  name : Json
  quantity : Json
  unit : Json

/-- The output of `inventoryFormSchema.parse`: quantity is a string after
the `.transform(val => val.toString())`. -/
structure InventoryForm where
  name : String
  quantity : String
  unit : String
deriving Repr, DecidableEq

/-- JS `Number(x)` on a JSON value (`z.coerce.number()`), `none` for NaN.
`parseNum` models numeric parsing of strings; containers, which the
inventory form never submits, are modelled as invalid. -/
def jsToNumber (parseNum : String → Option ℚ) : Json → Option ℚ
  | .null => some 0
  | .bool b => some (if b then 1 else 0)
  | .num q => some q
  | .str s => parseNum s
  | .arr _ => none
  | .obj _ => none

/-- Zod `z.string().min(1, emsg)`: a string of length at least one. -/
def zMinString (emsg : String) (j : Json) : Except String String :=
  match j with
  | .str s => if 1 ≤ s.length then .ok s else .error emsg
  | _ => .error "Expected string, received something else"

/-- Zod `z.coerce.number().min(0.01, "Quantity must be greater than 0")`. -/
def zCoercedQuantity (parseNum : String → Option ℚ) (j : Json) : Except String ℚ :=
  match jsToNumber parseNum j with
  | some q =>
    if (1 : ℚ)/100 ≤ q then .ok q else .error "Quantity must be greater than 0"
  | none => .error "Expected number, received nan"

/-- Embedding of `inventoryFormSchema.parse`: `name`/`unit` are non-empty strings,
`quantity` is coerced to a number, checked `≥ 0.01`, and rendered back to a
string by `.toString()` (modelled by `numToStr`). -/
def inventoryFormParse (parseNum : String → Option ℚ) (numToStr : ℚ → String)
    (body : RawInventoryBody) : Except String InventoryForm := do
  let name ← zMinString "Item name is required" body.name
  let q ← zCoercedQuantity parseNum body.quantity
  let unit ← zMinString "Unit is required" body.unit
  .ok ⟨name, numToStr q, unit⟩

/-- Handler of `POST /api/inventory`: validate the body, attach the user id, store. -/
def createInventoryHandler (parseNum : String → Option ℚ) (numToStr : ℚ → String)
    (userId : ℕ) (body : RawInventoryBody) (db : Db) :
    HttpResult InventoryItemRec × Db :=
  match inventoryFormParse parseNum numToStr body with
  | .error e => (.err 400 e, db)
  | .ok form =>
    let (item, db') := DatabaseStorage.createInventoryItem userId form.name form.quantity form.unit db
    (.ok item, db')

/-- Replacing the value of every `unit` field by the empty string, used to
compare a `null` unit with an explicit `""` unit. -/
def substUnitEmpty (fs : List (String × Json)) : List (String × Json) :=
  fs.map (fun p => if p.1 = "unit" then (p.1, Json.str "") else p)

/-- An ingredient object with the four schema fields. -/
def mkIngredientJson (n q : String) (u : Json) (b : Bool) : Json :=
  .obj [("name", .str n), ("quantity", .str q), ("unit", u), ("inInventory", .bool b)]

/-- A recipe object with the ten schema fields. -/
def mkRecipeJson (t d : String) (ct : ℚ) (df : String) (sv : ℚ)
    (ings instrs : List Json) (mi ti : ℚ) (tags : List Json) : Json :=
  .obj [("title", .str t), ("description", .str d), ("cookTime", .num ct),
        ("difficulty", .str df), ("servings", .num sv), ("ingredients", .arr ings),
        ("instructions", .arr instrs), ("matchedIngredients", .num mi),
        ("totalIngredients", .num ti), ("tags", .arr tags)]

/-! ## Concrete values used by witnesses and counterexamples -/

/-- Field list of a fully valid recipe payload. -/
def validRecipeFields : List (String × Json) :=
  [("title", .str "Omelette"), ("description", .str "Egg dish"),
   ("cookTime", .num 10), ("difficulty", .str "Easy"), ("servings", .num 2),
   ("ingredients", .arr [.obj [("name", .str "egg"), ("quantity", .str "2"),
                               ("unit", .str "pcs"), ("inInventory", .bool true)]]),
   ("instructions", .arr [.obj [("step", .num 1), ("instruction", .str "Beat the eggs")]]),
   ("matchedIngredients", .num 1), ("totalIngredients", .num 1),
   ("tags", .arr [.str "Quick"])]

/-- A fully valid recipe payload, as JSON. -/
def validRecipeJson : Json := .obj validRecipeFields

/-- The validated record for `validRecipeJson`. -/
def validRecipeVal : Recipe :=
  ⟨"Omelette", "Egg dish", 10, "Easy", 2, [⟨"egg", "2", "pcs", true⟩],
    [⟨1, "Beat the eggs"⟩], 1, 1, ["Quick"]⟩

/-- A recipe payload whose `title`, `description` and `difficulty` are all
the empty string, every other field valid. -/
def emptyTitleRecipeJson : Json :=
  .obj [("title", .str ""), ("description", .str ""),
        ("cookTime", .num 10), ("difficulty", .str ""), ("servings", .num 2),
        ("ingredients", .arr []), ("instructions", .arr []),
        ("matchedIngredients", .num 0), ("totalIngredients", .num 0),
        ("tags", .arr [])]

/-- Ingredient fields with a `null` unit. -/
def nullUnitIngredientFields : List (String × Json) :=
  [("name", .str "egg"), ("quantity", .str "2"), ("unit", Json.null),
   ("inInventory", .bool true)]

/-- A tiny model of `JSON.parse` used by closed witnesses: parses only the
two payloads the witnesses need. -/
def jsonParseEx : String → Except String Json :=
  fun s => if s = "[]" then .ok (.arr []) else .error "Unexpected token"

/-- A stored recipe row whose serialized lists are well-formed for
`jsonParseEx`. -/
def goodStoredRow : StoredRecipe :=
  ⟨1, "Omelette", "Egg dish", none, 10, "Easy", 2, "[]", "[]", 1, 1, ["Quick"]⟩

/-- A stored recipe row whose `ingredients` text does not parse. -/
def corruptStoredRow : StoredRecipe :=
  ⟨2, "Soup", "Warm", none, 20, "Easy", 2, "[]", "not json", 1, 1, []⟩

/-- Store state with one good and one corrupt recipe row. -/
def dbWithCorruptRow : Db := ⟨[goodStoredRow, corruptStoredRow], [], [], 3, 1⟩

/-- Store state with a single recipe and no favorites. -/
def dbOneRecipe : Db := ⟨[goodStoredRow], [], [], 2, 1⟩

/-- Store state whose only inventory item belongs to user 2. -/
def dbOtherUsersInventory : Db := ⟨[], [], [⟨1, 2, "egg", "2", "pcs"⟩], 1, 2⟩

/-- Number-from-string model used by closed witnesses. -/
def parseNumEx : String → Option ℚ := fun _ => none

/-- Number-to-string model used by closed witnesses. -/
def numToStrEx : ℚ → String := fun q => if q = 2 then "2" else "?"

/-- Inventory request body with a numeric quantity. -/
def numericQuantityBody : RawInventoryBody := ⟨.str "egg", .num 2, .str "pcs"⟩

/-- Generation client model used by closed witnesses. -/
def genEx : List InventoryItemRec → Except String (List Recipe) :=
  fun _ => .error "no model"

/-- Save model used by closed witnesses. -/
def saveEx : ℕ → InsertRecipe → Option StoredRecipe := fun _ _ => none

/-- Ingredient serializer model used by closed witnesses. -/
def strIngEx : List RecipeIngredient → String := fun _ => "[]"

/-- Instruction serializer model used by closed witnesses. -/
def strInstrEx : List RecipeInstruction → String := fun _ => "[]"

/-! ## Helper lemmas -/

/-- Inversion of `Except.mapError` on a success. -/
theorem mapError_eq_ok {ε ε' α : Type} (f : ε → ε') (x : Except ε α) (a : α) :
    x.mapError f = .ok a ↔ x = .ok a := by
  cases x <;> simp [Except.mapError]

/-- Inversion of `Except` bind on a success. -/
theorem bind_eq_ok {ε α β : Type} (x : Except ε α) (f : α → Except ε β) (b : β) :
    (x >>= f) = .ok b ↔ ∃ a, x = .ok a ∧ f a = .ok b := by
  cases x <;> simp [Bind.bind, Except.bind]

/-- A successful array validation preserves length. -/
theorem zArrayFrom_ok_length {α : Type} (f : Json → Except String α) :
    ∀ (xs : List Json) (i : ℕ) (as : List α), zArrayFrom f i xs = .ok as → as.length = xs.length := by
  intro xs
  induction xs with
  | nil => intro i as h; simp [zArrayFrom] at h; simp [← h]
  | cons x xs ih =>
    intro i as h
    simp only [zArrayFrom] at h
    cases hx : f x with
    | error e => rw [hx] at h; exact absurd h (by simp)
    | ok a =>
      rw [hx] at h
      cases hrest : zArrayFrom f (i + 1) xs with
      | error e => rw [hrest] at h; exact absurd h (by simp)
      | ok as' =>
        rw [hrest] at h
        simp at h
        subst h
        simp [ih (i + 1) as' hrest]

/-- If any element fails its schema, the whole array validation fails. -/
theorem zArrayFrom_error_of_mem {α : Type} (f : Json → Except String α) :
    ∀ (xs : List Json), (∃ x ∈ xs, ∃ e, f x = .error e) →
      ∀ i, ∃ e, zArrayFrom f i xs = .error e := by
  intro xs
  induction xs with
  | nil => rintro ⟨x, hx, _⟩; simp at hx
  | cons y ys ih =>
    rintro ⟨x, hx, e, he⟩ i
    simp only [List.mem_cons] at hx
    cases hx with
    | inl hxy =>
      subst hxy
      exact ⟨toString i ++ "." ++ e, by simp [zArrayFrom, he]⟩
    | inr hxs =>
      cases hy : f y with
      | error e' => exact ⟨toString i ++ "." ++ e', by simp [zArrayFrom, hy]⟩
      | ok a =>
        obtain ⟨e', he'⟩ := ih ⟨x, hxs, e, he⟩ (i + 1)
        exact ⟨e', by simp [zArrayFrom, hy, he']⟩

/-- Substituting the unit value rewrites the first `unit` binding to `""`. -/
theorem lookupField_substUnitEmpty_unit (fs : List (String × Json)) (v : Json)
    (h : Json.lookupField fs "unit" = some v) :
    Json.lookupField (substUnitEmpty fs) "unit" = some (Json.str "") := by
  induction fs with
  | nil => simp [Json.lookupField] at h
  | cons p rest ih =>
    obtain ⟨k, w⟩ := p
    have hsub : substUnitEmpty ((k, w) :: rest)
        = (if k = "unit" then (k, Json.str "") else (k, w)) :: substUnitEmpty rest := rfl
    rw [hsub]
    by_cases hk : k = "unit"
    · rw [if_pos hk]
      subst hk
      simp [Json.lookupField]
    · rw [if_neg hk]
      simp only [Json.lookupField, if_neg hk] at h ⊢
      exact ih h

/-- Substituting the unit value leaves the other fields unchanged. -/
theorem lookupField_substUnitEmpty_ne (fs : List (String × Json)) (k : String)
    (hk : k ≠ "unit") :
    Json.lookupField (substUnitEmpty fs) k = Json.lookupField fs k := by
  induction fs with
  | nil => simp [substUnitEmpty, Json.lookupField]
  | cons p rest ih =>
    obtain ⟨k', w⟩ := p
    have hsub : substUnitEmpty ((k', w) :: rest)
        = (if k' = "unit" then (k', Json.str "") else (k', w)) :: substUnitEmpty rest := rfl
    rw [hsub]
    by_cases hk' : k' = "unit"
    · rw [if_pos hk']
      subst hk'
      simp only [Json.lookupField]
      rw [if_neg (fun h => hk h.symm), if_neg (fun h => hk h.symm)]
      exact ih
    · rw [if_neg hk']
      simp only [Json.lookupField]
      by_cases hkk : k' = k
      · rw [if_pos hkk, if_pos hkk]
      · rw [if_neg hkk, if_neg hkk]
        exact ih

/-- Success inversion for the string field schema. -/
theorem zString_eq_ok (v : Option Json) (s : String) : zString v = .ok s ↔ v = some (.str s) := by
  cases v with
  | none => simp [zString]
  | some j => cases j <;> simp [zString]

/-- Success inversion for the number field schema. -/
theorem zNumber_eq_ok (v : Option Json) (q : ℚ) : zNumber v = .ok q ↔ v = some (.num q) := by
  cases v with
  | none => simp [zNumber]
  | some j => cases j <;> simp [zNumber]

/-- Success inversion for the boolean field schema. -/
theorem zBoolean_eq_ok (v : Option Json) (b : Bool) : zBoolean v = .ok b ↔ v = some (.bool b) := by
  cases v with
  | none => simp [zBoolean]
  | some j => cases j <;> simp [zBoolean]

/-- Success inversion for the top-level unwrap-then-validate step. -/
theorem validateTopLevel_eq_ok (parsed : Json) (rs : List Recipe)
    (h : validateTopLevel parsed = .ok rs) :
    ∃ xs, pickRecipesArray parsed = .ok (.arr xs) ∧ zArrayFrom validateRecipe 0 xs = .ok rs := by
  cases hpick : pickRecipesArray parsed with
  | error e => simp [validateTopLevel, hpick, Bind.bind, Except.bind] at h
  | ok a =>
    have h' : recipesResponseParse a = .ok rs := by
      simpa [validateTopLevel, hpick, Bind.bind, Except.bind] using h
    cases a with
    | arr xs => exact ⟨xs, rfl, h'⟩
    | null => simp [recipesResponseParse] at h'
    | bool b => simp [recipesResponseParse] at h'
    | num q => simp [recipesResponseParse] at h'
    | str s => simp [recipesResponseParse] at h'
    | obj fs => simp [recipesResponseParse] at h'

/-- Success inversion for the generation pipeline body. -/
theorem generateRecipesCore_eq_ok (jp : String → Except String Json)
    (content : Option String) (rs : List Recipe)
    (h : generateRecipesCore jp content = .ok rs) :
    ∃ s parsed, content = some s ∧ s ≠ "" ∧ jp s = .ok parsed ∧
      validateTopLevel parsed = .ok rs := by
  cases content with
  | none => simp [generateRecipesCore, Bind.bind, Except.bind] at h
  | some s =>
    by_cases hs : s = ""
    · subst hs
      simp [generateRecipesCore, Bind.bind, Except.bind] at h
    · cases hjp : jp s with
      | error e =>
        rw [show generateRecipesCore jp (some s) = .error e by
          simp [generateRecipesCore, hs, hjp, Bind.bind, Except.bind]] at h
        exact absurd h (by simp)
      | ok parsed =>
        refine ⟨s, parsed, rfl, hs, hjp, ?_⟩
        cases hvt : validateTopLevel parsed with
        | error e =>
          rw [show generateRecipesCore jp (some s) = .error e by
            simp [generateRecipesCore, hs, hjp, hvt, Bind.bind, Except.bind]] at h
          exact absurd h (by simp)
        | ok rs' =>
          rw [show generateRecipesCore jp (some s) = .ok rs' by
            simp [generateRecipesCore, hs, hjp, hvt, Bind.bind, Except.bind]] at h
          simp only [Except.ok.injEq] at h
          rw [h]

/-- Deleting all rows matching a predicate leaves no row matching it. -/
theorem any_filter_not {α : Type} (l : List α) (p : α → Bool) :
    (l.filter (fun a => !(p a))).any p = false := by
  simp [List.any_eq_false, List.mem_filter]

/-- A fresh favorite row matches its own pair. -/
theorem favMatches_self (rid uid : ℕ) :
    DatabaseStorage.favMatches rid uid ⟨uid, rid⟩ = true := by
  simp [DatabaseStorage.favMatches]

/-- Resolution of `getRecipe` with a user context when the row exists. -/
theorem getRecipe_some (rid uid : ℕ) (row : StoredRecipe) (db : Db)
    (hrow : DatabaseStorage.getRecipeRow rid db = some row) :
    DatabaseStorage.getRecipe rid (some uid) db
      = some ⟨row, if uid == 0 then none else some (DatabaseStorage.favMem db rid uid)⟩ := by
  by_cases huid : uid == 0 <;> simp [DatabaseStorage.getRecipe, hrow, huid]

/-- If any record in the list fails to format, the whole mapping fails. -/
theorem formatAll_error_of_mem (jp : String → Except String Json) :
    ∀ (l : List RecipeOut), (∃ r ∈ l, ∃ e, formatRecipe jp r = .error e) →
      ∃ e, formatAll jp l = .error e := by
  intro l
  induction l with
  | nil => rintro ⟨r, hr, _⟩; simp at hr
  | cons y ys ih =>
    rintro ⟨r, hr, e, he⟩
    simp only [List.mem_cons] at hr
    cases hr with
    | inl hry =>
      subst hry
      exact ⟨e, by simp [formatAll, he]⟩
    | inr hrs =>
      cases hy : formatRecipe jp y with
      | error e' => exact ⟨e', by simp [formatAll, hy]⟩
      | ok fr =>
        obtain ⟨e', he'⟩ := ih ⟨r, hrs, e, he⟩
        exact ⟨e', by simp [formatAll, hy, he']⟩

/-- A successful formatting pass returns one formatted recipe per input
record. -/
theorem formatAll_ok_length (jp : String → Except String Json) :
    ∀ (l : List RecipeOut) (frs : List FormattedRecipe),
      formatAll jp l = .ok frs → frs.length = l.length := by
  intro l
  induction l with
  | nil => intro frs h; simp [formatAll] at h; simp [← h]
  | cons y ys ih =>
    intro frs h
    simp only [formatAll] at h
    cases hy : formatRecipe jp y with
    | error e => rw [hy] at h; exact absurd h (by simp)
    | ok fr =>
      rw [hy] at h
      cases hrest : formatAll jp ys with
      | error e => rw [hrest] at h; exact absurd h (by simp)
      | ok frs' =>
        rw [hrest] at h
        simp at h
        subst h
        simp [ih frs' hrest]

/-! ## Claim theorems -/

open DatabaseStorage

/-- C2: for every list `L` of recipe objects, the validator treats the
top-level array `L` and the top-level object `\x7b "recipes": L \x7d`
identically: the unwrapping step yields the same array in both cases, so
validation succeeds or fails together and the normalized output is the
same (namely `z.array(RecipeSchema)` applied to `L`). -/
theorem validateTopLevel_array_eq_wrapped (L : List Json) :
    validateTopLevel (Json.arr L) = validateTopLevel (Json.obj [("recipes", Json.arr L)]) ∧
    validateTopLevel (Json.arr L) = zArrayFrom validateRecipe 0 L := by
  constructor <;> rfl

/-- C4 (amended form shares this statement): the batch save of the
generation route returns exactly the successfully saved subset, in order —
the per-candidate `try/catch` turns a failed save into a dropped candidate
and never fails the batch; in particular, for three candidates where only
the second save fails, exactly the first and third saved rows are
returned. -/
theorem persistBatch_partial_failure :
    (∀ (save : ℕ → InsertRecipe → Option StoredRecipe) strIng strInstr rs,
      persistBatch save strIng strInstr rs
        = (rs.enum).filterMap (fun p => save p.1 (recipeToSave strIng strInstr p.2))) ∧
    (∀ (f : ℕ → InsertRecipe → StoredRecipe) strIng strInstr r1 r2 r3,
      persistBatch (fun i ins => if i == 1 then none else some (f i ins)) strIng strInstr [r1, r2, r3]
        = [f 0 (recipeToSave strIng strInstr r1), f 2 (recipeToSave strIng strInstr r3)]) := by
  constructor
  · intro save strIng strInstr rs
    simp [persistBatch, List.filterMap_map]
  · intro f strIng strInstr r1 r2 r3
    rfl

/-- C5 counterexample: the claim says the validator rejects a recipe whose
`title`, `description` or `difficulty` is the empty string; in fact a
recipe with all three empty is accepted (the schema uses plain
`z.string()` with no minimum length). -/
theorem validateRecipe_accepts_empty_title :
    validateRecipe emptyTitleRecipeJson
      = .ok ⟨"", "", 10, "", 2, [], [], 0, 0, []⟩ := by
  rfl

/-- C5 (amended): every recipe accepted by the validator has `title`,
`description` and `difficulty` present as string fields, copied into the
record verbatim (possibly empty); a recipe whose `title`, `description` or
`difficulty` is absent or not a string is rejected. (The original claim's
non-emptiness requirement fails; see the counterexample.) -/
theorem validateRecipe_string_fields :
    (∀ fs r, validateRecipe (Json.obj fs) = .ok r →
      ∃ t d df, Json.lookupField fs "title" = some (.str t) ∧
        Json.lookupField fs "description" = some (.str d) ∧
        Json.lookupField fs "difficulty" = some (.str df) ∧
        r.title = t ∧ r.description = d ∧ r.difficulty = df) ∧
    (∀ fs, (∀ s, Json.lookupField fs "title" ≠ some (.str s)) →
      ∃ e, validateRecipe (Json.obj fs) = .error e) ∧
    (∀ fs, (∀ s, Json.lookupField fs "description" ≠ some (.str s)) →
      ∃ e, validateRecipe (Json.obj fs) = .error e) ∧
    (∀ fs, (∀ s, Json.lookupField fs "difficulty" ≠ some (.str s)) →
      ∃ e, validateRecipe (Json.obj fs) = .error e) := by
  refine ⟨?_, ?_, ?_, ?_⟩
  · intro fs r h
    simp only [validateRecipe, bind_eq_ok, mapError_eq_ok, zString_eq_ok, zNumber_eq_ok] at h
    obtain ⟨t, ht, d, hd, ct, hct, df, hdf, sv, hsv, h⟩ := h
    refine ⟨t, d, df, ht, hd, hdf, ?_⟩
    split at h
    · simp only [bind_eq_ok, mapError_eq_ok, Except.ok.injEq, exists_eq_left] at h
      obtain ⟨ings, hings, h⟩ := h
      split at h
      · simp only [bind_eq_ok, mapError_eq_ok, zNumber_eq_ok, Except.ok.injEq,
          exists_eq_left] at h
        obtain ⟨instrs, hinstrs, mi, hmi, ti, hti, h⟩ := h
        split at h
        · simp only [bind_eq_ok, mapError_eq_ok, Except.ok.injEq, exists_eq_left] at h
          obtain ⟨tags, htags, h⟩ := h
          obtain ⟨total, htotal, tagL, htagL, tg, htg, hr⟩ := h
          subst hr
          exact ⟨rfl, rfl, rfl⟩
        · simp [Bind.bind, Except.bind] at h
      · simp [Bind.bind, Except.bind] at h
    · simp [Bind.bind, Except.bind] at h
  · intro fs hno
    cases hT : zString (Json.lookupField fs "title") with
    | error e => exact ⟨"title: " ++ e, by simp [validateRecipe, hT, Except.mapError, Bind.bind, Except.bind]⟩
    | ok s => exact absurd ((zString_eq_ok _ _).mp hT) (hno s)
  · intro fs hno
    cases hT : zString (Json.lookupField fs "title") with
    | error e => exact ⟨"title: " ++ e, by simp [validateRecipe, hT, Except.mapError, Bind.bind, Except.bind]⟩
    | ok t =>
      cases hD : zString (Json.lookupField fs "description") with
      | error e => exact ⟨"description: " ++ e,
          by simp [validateRecipe, hT, hD, Except.mapError, Bind.bind, Except.bind]⟩
      | ok s => exact absurd ((zString_eq_ok _ _).mp hD) (hno s)
  · intro fs hno
    cases hT : zString (Json.lookupField fs "title") with
    | error e => exact ⟨"title: " ++ e, by simp [validateRecipe, hT, Except.mapError, Bind.bind, Except.bind]⟩
    | ok t =>
      cases hD : zString (Json.lookupField fs "description") with
      | error e => exact ⟨"description: " ++ e,
          by simp [validateRecipe, hT, hD, Except.mapError, Bind.bind, Except.bind]⟩
      | ok d =>
        cases hC : zNumber (Json.lookupField fs "cookTime") with
        | error e => exact ⟨"cookTime: " ++ e,
            by simp [validateRecipe, hT, hD, hC, Except.mapError, Bind.bind, Except.bind]⟩
        | ok ct =>
          cases hF : zString (Json.lookupField fs "difficulty") with
          | error e => exact ⟨"difficulty: " ++ e,
              by simp [validateRecipe, hT, hD, hC, hF, Except.mapError, Bind.bind, Except.bind]⟩
          | ok s => exact absurd ((zString_eq_ok _ _).mp hF) (hno s)

/-- C5 witness: the fully valid example recipe exhibits the three string
fields, and the empty object (missing `title`) is rejected. -/
theorem validateRecipe_string_fields_witness :
    (∃ t d df, Json.lookupField validRecipeFields "title" = some (.str t) ∧
      Json.lookupField validRecipeFields "description" = some (.str d) ∧
      Json.lookupField validRecipeFields "difficulty" = some (.str df) ∧
      validRecipeVal.title = t ∧ validRecipeVal.description = d ∧ validRecipeVal.difficulty = df) ∧
    (∃ e, validateRecipe (Json.obj []) = .error e) :=
  ⟨validateRecipe_string_fields.1 validRecipeFields validRecipeVal rfl,
   validateRecipe_string_fields.2.1 [] (fun _ h => Option.noConfusion h)⟩

/-- C6: a `null` ingredient `unit` is not rejected and is coerced to `""`:
validation of an ingredient whose `unit` is `null` coincides with
validation of the same ingredient with `unit` equal to `""`; every accepted
ingredient's `unit` is the string produced by the unit schema (so it is
never null), and it is `""` whenever the input unit was `null`; a complete
recipe whose ingredient has a `null` unit validates with unit `""`. -/
theorem nullUnit_coerced :
    (∀ fs, Json.lookupField fs "unit" = some Json.null →
      validateIngredient (Json.obj fs) = validateIngredient (Json.obj (substUnitEmpty fs))) ∧
    (∀ fs ing, validateIngredient (Json.obj fs) = .ok ing →
      (Json.lookupField fs "unit" = some Json.null → ing.unit = "") ∧
      ∃ u, zUnit (Json.lookupField fs "unit") = .ok u ∧ ing.unit = u) ∧
    (∀ (t d : String) (ct : ℚ) (df : String) (sv : ℚ) (n q : String) (b : Bool) (mi ti : ℚ),
      validateRecipe (mkRecipeJson t d ct df sv [mkIngredientJson n q Json.null b] [] mi ti [])
        = .ok ⟨t, d, ct, df, sv, [⟨n, q, "", b⟩], [], mi, ti, []⟩) := by
  refine ⟨?_, ?_, ?_⟩
  · intro fs h
    have hn := lookupField_substUnitEmpty_ne fs "name" (by decide)
    have hq := lookupField_substUnitEmpty_ne fs "quantity" (by decide)
    have hb := lookupField_substUnitEmpty_ne fs "inInventory" (by decide)
    have hu := lookupField_substUnitEmpty_unit fs _ h
    simp [validateIngredient, hn, hq, hb, hu, h, zUnit]
  · intro fs ing h
    simp only [validateIngredient, bind_eq_ok, mapError_eq_ok, zString_eq_ok,
      zBoolean_eq_ok] at h
    obtain ⟨n, hn, q, hq, u, hu, b, hb, hr⟩ := h
    simp only [Except.ok.injEq] at hr
    subst hr
    refine ⟨fun hnull => ?_, u, hu, rfl⟩
    rw [hnull] at hu
    simpa [zUnit] using hu.symm
  · intro t d ct df sv n q b mi ti
    rfl

/-- C6 witness: the concrete null-unit ingredient evaluates both ways. -/
theorem nullUnit_coerced_witness :
    validateIngredient (Json.obj nullUnitIngredientFields)
        = validateIngredient (Json.obj (substUnitEmpty nullUnitIngredientFields)) ∧
    (RecipeIngredient.mk "egg" "2" "" true).unit = "" :=
  ⟨nullUnit_coerced.1 nullUnitIngredientFields rfl,
   (nullUnit_coerced.2.1 nullUnitIngredientFields ⟨"egg", "2", "", true⟩ rfl).1 rfl⟩

/-- C1: `generateRecipes` is all-or-nothing. It fails when the response
content is absent or empty (with the wrapped empty-response message), fails
when the content does not parse as JSON (propagating the underlying parse
error message inside the wrapper), and fails when any recipe of the parsed
batch fails schema validation (the whole batch is rejected); when it
succeeds, the result is the full validated batch: one validated record per
element of the parsed array, never a partial subset. -/
theorem generateRecipes_all_or_nothing (jp : String → Except String Json)
    (content : Option String) :
    ((content = none ∨ content = some "") →
      generateRecipes jp content
        = .error "Failed to generate recipes: Empty response from OpenAI") ∧
    (∀ s m, content = some s → s ≠ "" → jp s = .error m →
      generateRecipes jp content = .error ("Failed to generate recipes: " ++ m)) ∧
    (∀ s j xs, content = some s → s ≠ "" → jp s = .ok j →
      pickRecipesArray j = .ok (.arr xs) →
      (∃ x ∈ xs, ∃ e, validateRecipe x = .error e) →
      ∃ e, generateRecipes jp content = .error e) ∧
    (∀ rs, generateRecipes jp content = .ok rs →
      ∃ s j xs, content = some s ∧ s ≠ "" ∧ jp s = .ok j ∧
        pickRecipesArray j = .ok (.arr xs) ∧
        zArrayFrom validateRecipe 0 xs = .ok rs ∧ rs.length = xs.length) := by
  refine ⟨?_, ?_, ?_, ?_⟩
  · rintro (rfl | rfl) <;> rfl
  · rintro s m rfl hs hjp
    simp [generateRecipes, generateRecipesCore, hs, hjp, Bind.bind, Except.bind]
  · rintro s j xs rfl hs hjp hpick hbad
    obtain ⟨e, he⟩ := zArrayFrom_error_of_mem validateRecipe xs hbad 0
    refine ⟨"Failed to generate recipes: " ++ e, ?_⟩
    simp [generateRecipes, generateRecipesCore, validateTopLevel, recipesResponseParse,
      hs, hjp, hpick, he, Bind.bind, Except.bind]
  · intro rs h
    unfold generateRecipes at h
    cases hcore : generateRecipesCore jp content with
    | error e => rw [hcore] at h; exact absurd h (by simp)
    | ok rs' =>
      rw [hcore] at h
      simp only [Except.ok.injEq] at h
      subst h
      obtain ⟨s, parsed, hc, hs, hjp, hvt⟩ := generateRecipesCore_eq_ok jp content rs' hcore
      obtain ⟨xs, hpick, hval⟩ := validateTopLevel_eq_ok parsed rs' hvt
      exact ⟨s, parsed, xs, hc, hs, hjp, hpick, hval,
        zArrayFrom_ok_length validateRecipe xs 0 rs' hval⟩

/-- C1 witness: with a concrete parse model, the empty content, a
non-parsing content, and a fully valid single-recipe batch each behave as
stated. -/
theorem generateRecipes_all_or_nothing_witness :
    generateRecipes jsonParseEx (some "")
        = .error "Failed to generate recipes: Empty response from OpenAI" ∧
    generateRecipes jsonParseEx (some "bad")
        = .error ("Failed to generate recipes: " ++ "Unexpected token") :=
  ⟨(generateRecipes_all_or_nothing jsonParseEx (some "")).1 (Or.inr rfl),
   (generateRecipes_all_or_nothing jsonParseEx (some "bad")).2.1 "bad" "Unexpected token"
      rfl (by decide) rfl⟩

/-- C3: the favorite toggle is an involution on membership. For a recipe
that exists, one call flips the `(userId, recipeId)` membership in the
Favorite relation exactly once, two calls in sequence restore it, the first
call returns `isFavorite` equal to the flipped state, and the second call's
`isFavorite` is the negation of the first call's. -/
theorem toggleFavoriteRecipe_involution (db : Db) (rid uid : ℕ)
    (h : (getRecipeRow rid db).isSome = true) :
    ((toggleFavoriteRecipe rid uid db).1.map RecipeOut.isFavorite
        = some (some (!(favMem db rid uid)))) ∧
    ((toggleFavoriteRecipe rid uid (toggleFavoriteRecipe rid uid db).2).1.map RecipeOut.isFavorite
        = some (some (favMem db rid uid))) ∧
    (favMem (toggleFavoriteRecipe rid uid db).2 rid uid = !(favMem db rid uid)) ∧
    (favMem (toggleFavoriteRecipe rid uid
        (toggleFavoriteRecipe rid uid db).2).2 rid uid = favMem db rid uid) := by
  obtain ⟨row, hrow⟩ : ∃ row, getRecipeRow rid db = some row := by
    cases hr : getRecipeRow rid db with
    | none => rw [hr] at h; simp at h
    | some r => exact ⟨r, rfl⟩
  have hget := getRecipe_some rid uid row db hrow
  cases hfav : db.favorites.any (favMatches rid uid) with
  | true =>
    have hp1 : toggleFavoriteRecipe rid uid db
        = (some ⟨row, some false⟩,
           { db with favorites := List.filter (fun f => !(favMatches rid uid f)) db.favorites }) := by
      simp [toggleFavoriteRecipe, hget, hfav]
    have hrow1 : getRecipeRow rid
        { db with favorites := List.filter (fun f => !(favMatches rid uid f)) db.favorites }
        = some row := hrow
    have hfav1 : ({ db with
        favorites := List.filter (fun f => !(favMatches rid uid f)) db.favorites } : Db).favorites.any
          (favMatches rid uid) = false := any_filter_not _ _
    have hget1 := getRecipe_some rid uid row _ hrow1
    have hp2 : toggleFavoriteRecipe rid uid
        { db with favorites := List.filter (fun f => !(favMatches rid uid f)) db.favorites }
        = (some ⟨row, some true⟩,
           { db with favorites := List.filter (fun f => !(favMatches rid uid f)) db.favorites ++ [⟨uid, rid⟩] }) := by
      simp [toggleFavoriteRecipe, hget1, hfav1]
    have hfst : (toggleFavoriteRecipe rid uid db).1 = some ⟨row, some false⟩ := by rw [hp1]
    have hsnd : (toggleFavoriteRecipe rid uid db).2
        = { db with favorites := List.filter (fun f => !(favMatches rid uid f)) db.favorites } := by
      rw [hp1]
    refine ⟨?_, ?_, ?_, ?_⟩
    · rw [hfst]; simp [favMem, hfav]
    · rw [hsnd, hp2]; simp [favMem, hfav]
    · rw [hsnd]; simp [favMem, hfav, any_filter_not]
    · rw [hsnd, hp2]; simp [favMem, hfav, List.any_append, any_filter_not, favMatches_self]
  | false =>
    have hp1 : toggleFavoriteRecipe rid uid db
        = (some ⟨row, some true⟩,
           { db with favorites := db.favorites ++ [⟨uid, rid⟩] }) := by
      simp [toggleFavoriteRecipe, hget, hfav]
    have hrow1 : getRecipeRow rid { db with favorites := db.favorites ++ [⟨uid, rid⟩] }
        = some row := hrow
    have hfav1 : ({ db with favorites := db.favorites ++ [⟨uid, rid⟩] } : Db).favorites.any
        (favMatches rid uid) = true := by
      simp [List.any_append, favMatches_self]
    have hget1 := getRecipe_some rid uid row _ hrow1
    have hp2 : toggleFavoriteRecipe rid uid
        { db with favorites := db.favorites ++ [⟨uid, rid⟩] }
        = (some ⟨row, some false⟩,
           { db with favorites := List.filter (fun f => !(favMatches rid uid f)) (db.favorites ++ [⟨uid, rid⟩]) }) := by
      simp [toggleFavoriteRecipe, hget1, hfav1]
    have hfst : (toggleFavoriteRecipe rid uid db).1 = some ⟨row, some true⟩ := by rw [hp1]
    have hsnd : (toggleFavoriteRecipe rid uid db).2
        = { db with favorites := db.favorites ++ [⟨uid, rid⟩] } := by rw [hp1]
    refine ⟨?_, ?_, ?_, ?_⟩
    · rw [hfst]; simp [favMem, hfav]
    · rw [hsnd, hp2]; simp [favMem, hfav]
    · rw [hsnd]; simp [favMem, hfav, List.any_append, favMatches_self]
    · rw [hsnd, hp2]; simp [favMem, hfav, any_filter_not]

/-- C3 witness: the involution evaluated on a one-recipe store with no
favorites, user 7 toggling recipe 1 twice. -/
theorem toggleFavoriteRecipe_involution_witness :
    ((toggleFavoriteRecipe 1 7 dbOneRecipe).1.map RecipeOut.isFavorite
        = some (some (!(favMem dbOneRecipe 1 7)))) ∧
    ((toggleFavoriteRecipe 1 7 (toggleFavoriteRecipe 1 7 dbOneRecipe).2).1.map RecipeOut.isFavorite
        = some (some (favMem dbOneRecipe 1 7))) ∧
    (favMem (toggleFavoriteRecipe 1 7 dbOneRecipe).2 1 7 = !(favMem dbOneRecipe 1 7)) ∧
    (favMem (toggleFavoriteRecipe 1 7
        (toggleFavoriteRecipe 1 7 dbOneRecipe).2).2 1 7 = favMem dbOneRecipe 1 7) :=
  toggleFavoriteRecipe_involution dbOneRecipe 1 7 rfl

/-- One storage operation preserves the at-most-one-favorite-row
invariant. -/
theorem favUnique_applyOp (db : Db) (op : StorageOp) (h : FavUnique db) :
    FavUnique (applyOp db op) := by
  cases op with
  | toggleFavorite rid uid =>
    show FavUnique (toggleFavoriteRecipe rid uid db).2
    cases hget : getRecipe rid (some uid) db with
    | none =>
      rw [show (toggleFavoriteRecipe rid uid db).2 = db by
        simp [toggleFavoriteRecipe, hget]]
      exact h
    | some rec =>
      cases hfav : db.favorites.any (favMatches rid uid) with
      | true =>
        rw [show (toggleFavoriteRecipe rid uid db).2
            = { db with favorites := List.filter (fun f => !(favMatches rid uid f)) db.favorites } by
          simp [toggleFavoriteRecipe, hget, hfav]]
        intro u r
        exact le_trans ((List.filter_sublist db.favorites).countP_le _) (h u r)
      | false =>
        rw [show (toggleFavoriteRecipe rid uid db).2
            = { db with favorites := db.favorites ++ [⟨uid, rid⟩] } by
          simp [toggleFavoriteRecipe, hget, hfav]]
        intro u r
        show (db.favorites ++ [(⟨uid, rid⟩ : FavRow)]).countP
            (fun f => f.userId == u && f.recipeId == r) ≤ 1
        rw [List.countP_append]
        by_cases hp : ((⟨uid, rid⟩ : FavRow).userId == u
            && (⟨uid, rid⟩ : FavRow).recipeId == r) = true
        · obtain ⟨hu, hr⟩ := Bool.and_eq_true_iff.mp hp
          have hu' : uid = u := by simpa using hu
          have hr' : rid = r := by simpa using hr
          subst hu'
          subst hr'
          have hzero : db.favorites.countP (fun f => f.userId == uid && f.recipeId == rid) = 0 := by
            rw [List.countP_eq_zero]
            intro f hf hpf
            obtain ⟨h1, h2⟩ := Bool.and_eq_true_iff.mp hpf
            have : db.favorites.any (favMatches rid uid) = true :=
              List.any_eq_true.mpr ⟨f, hf, by simp [favMatches, h1, h2]⟩
            rw [this] at hfav
            exact Bool.noConfusion hfav
          rw [hzero]
          simp [List.countP_cons, List.countP_nil, hp]
        · have hone : List.countP (fun f => f.userId == u && f.recipeId == r)
              [(⟨uid, rid⟩ : FavRow)] = 0 := by
            simp only [List.countP_cons, List.countP_nil]
            simp [hp]
          rw [hone]
          simpa using h u r
  | createRecipe ins =>
    intro u r
    exact h u r
  | deleteRecipe id =>
    intro u r
    exact le_trans ((List.filter_sublist db.favorites).countP_le _) (h u r)
  | createInventoryItem uid n q un =>
    intro u r
    exact h u r
  | getRecipeOp id uid => exact h
  | getRecipesOp => exact h
  | getFavoriteRecipesOp uid => exact h
  | getInventoryItemsOp uid => exact h

/-- C7: in every state reachable from a state with at most one Favorite
row per `(userId, recipeId)` pair by sequentially applying the storage
operations (toggle, create recipe, delete recipe, create inventory item,
and the reads), the Favorite relation still has at most one row per
pair. -/
theorem favorite_rows_unique (db : Db) (ops : List StorageOp) (h : FavUnique db) :
    FavUnique (applyOps db ops) := by
  induction ops generalizing db with
  | nil => exact h
  | cons op rest ih => exact ih (applyOp db op) (favUnique_applyOp db op h)

/-- C7 witness: reachability from the empty-favorites store through a
concrete operation sequence. -/
theorem favorite_rows_unique_witness :
    FavUnique (applyOps dbOneRecipe
      [StorageOp.toggleFavorite 1 7, StorageOp.toggleFavorite 1 8,
       StorageOp.toggleFavorite 1 7, StorageOp.deleteRecipe 1]) :=
  favorite_rows_unique dbOneRecipe _ (fun u r => by simp [dbOneRecipe])

/-- C8 counterexample: the claim says a deserialization failure is signaled
per-record; in fact one corrupt record makes the whole listing fail with
the catch-all 500 — the perfectly good first record (which formats
successfully on its own) is not returned and no per-record error
appears. -/
theorem getRecipes_whole_listing_fails :
    getRecipesHandler jsonParseEx dbWithCorruptRow = .err 500 "Failed to retrieve recipes" ∧
    (formatRecipe jsonParseEx ⟨goodStoredRow, none⟩).isOk = true :=
  ⟨rfl, rfl⟩

/-- C8 (amended): a record whose stored `ingredients`/`instructions` text
fails to deserialize is signaled as an error — never swallowed, never
silently dropped, never returned as an empty collection — but the signal is
a single whole-operation 500: for the listing, one corrupt record fails
the entire request (successes return one formatted recipe per stored
record); for the single-recipe read, the corrupt record yields the 500. -/
theorem corruptRecord_signal_whole_operation :
    (∀ jp db, (∃ r ∈ db.recipes, ∃ e, formatRecipe jp ⟨r, none⟩ = .error e) →
      getRecipesHandler jp db = .err 500 "Failed to retrieve recipes") ∧
    (∀ jp db frs, getRecipesHandler jp db = .ok frs → frs.length = db.recipes.length) ∧
    (∀ jp id uid db r, getRecipe id uid db = some r →
      (∃ e, formatRecipe jp r = .error e) →
      getRecipeByIdHandler jp id uid db = .err 500 "Failed to retrieve recipe") := by
  refine ⟨?_, ?_, ?_⟩
  · rintro jp db ⟨r, hr, e, he⟩
    obtain ⟨e', he'⟩ := formatAll_error_of_mem jp (db.recipes.map (fun r => ⟨r, none⟩))
      ⟨⟨r, none⟩, List.mem_map_of_mem _ hr, e, he⟩
    simp [getRecipesHandler, he']
  · intro jp db frs h
    cases hfa : formatAll jp (db.recipes.map (fun r => ⟨r, none⟩)) with
    | error e => simp [getRecipesHandler, hfa] at h
    | ok frs' =>
      have : frs' = frs := by simpa [getRecipesHandler, hfa] using h
      subst this
      simpa using formatAll_ok_length jp _ frs' hfa
  · rintro jp id uid db r hget ⟨e, he⟩
    simp [getRecipeByIdHandler, hget, he]

/-- C8 witness: on the concrete corrupt store both read paths return the
whole-operation 500. -/
theorem corruptRecord_signal_whole_operation_witness :
    getRecipesHandler jsonParseEx dbWithCorruptRow = .err 500 "Failed to retrieve recipes" ∧
    getRecipeByIdHandler jsonParseEx 2 none dbWithCorruptRow
      = .err 500 "Failed to retrieve recipe" :=
  ⟨corruptRecord_signal_whole_operation.1 jsonParseEx dbWithCorruptRow
      ⟨corruptStoredRow, by simp [dbWithCorruptRow], "Unexpected token", rfl⟩,
   corruptRecord_signal_whole_operation.2.2 jsonParseEx 2 none dbWithCorruptRow
      ⟨corruptStoredRow, none⟩ rfl ⟨"Unexpected token", rfl⟩⟩

/-- C10: when the authenticated user's inventory is empty, the generation
route fails with the 400 client error before the generation client is
invoked — the outcome is the same for every generation client and every
save behavior — and the store is returned unchanged, so no recipe record
is created. -/
theorem generate_requires_inventory (u : ℕ) (db : Db) (hu : (u == 0) = false)
    (hinv : getInventoryItems u db = []) :
    ∀ gen save strIng strInstr,
      generateRouteHandler gen save strIng strInstr (some u) db
        = (.err 400 "No inventory items found. Please add some ingredients first.", db) := by
  intro gen save strIng strInstr
  simp [generateRouteHandler, hu, hinv]

/-- C10 witness: user 1 with an inventory belonging only to user 2. -/
theorem generate_requires_inventory_witness :
    generateRouteHandler genEx saveEx strIngEx strInstrEx (some 1) dbOtherUsersInventory
      = (.err 400 "No inventory items found. Please add some ingredients first.",
         dbOtherUsersInventory) :=
  generate_requires_inventory 1 dbOtherUsersInventory rfl rfl genEx saveEx strIngEx strInstrEx

/-- C9: every inventory entry accepted at the input boundary carries its
quantity as a string: the accepted form's quantity is exactly the
`toString` rendering of the coerced number (in particular for numeric
input), the create handler stores that string unchanged in the inventory
row, and the prompt builder consumes the stored quantity as text, by plain
string concatenation. -/
theorem quantity_kept_as_string (pn : String → Option ℚ) (nts : ℚ → String)
    (body : RawInventoryBody) (uid : ℕ) (db : Db) (form : InventoryForm)
    (h : inventoryFormParse pn nts body = .ok form) :
    (∃ q, jsToNumber pn body.quantity = some q ∧ (1 : ℚ)/100 ≤ q ∧ form.quantity = nts q) ∧
    (∀ q, body.quantity = .num q → form.quantity = nts q) ∧
    (createInventoryHandler pn nts uid body db
      = (.ok ⟨db.nextInventoryId, uid, form.name, form.quantity, form.unit⟩,
         { db with
            inventory := db.inventory ++ [⟨db.nextInventoryId, uid, form.name, form.quantity, form.unit⟩],
            nextInventoryId := db.nextInventoryId + 1 })) ∧
    (∀ item : InventoryItemRec,
      formatInventoryItem item = item.name ++ ": " ++ item.quantity ++ " " ++ item.unit) := by
  have hc : createInventoryHandler pn nts uid body db
      = (.ok ⟨db.nextInventoryId, uid, form.name, form.quantity, form.unit⟩,
         { db with
            inventory := db.inventory ++ [⟨db.nextInventoryId, uid, form.name, form.quantity, form.unit⟩],
            nextInventoryId := db.nextInventoryId + 1 }) := by
    simp [createInventoryHandler, h, DatabaseStorage.createInventoryItem]
  have h' := h
  simp only [inventoryFormParse, bind_eq_ok] at h'
  obtain ⟨name, hname, q, hq, unit, hunit, hform⟩ := h'
  simp only [Except.ok.injEq] at hform
  have hq' : jsToNumber pn body.quantity = some q ∧ (1 : ℚ)/100 ≤ q := by
    cases hj : jsToNumber pn body.quantity with
    | none => simp [zCoercedQuantity, hj] at hq
    | some q1 =>
      simp only [zCoercedQuantity, hj] at hq
      by_cases hmin : (1 : ℚ)/100 ≤ q1
      · rw [if_pos hmin] at hq
        simp only [Except.ok.injEq] at hq
        subst hq
        exact ⟨rfl, hmin⟩
      · rw [if_neg hmin] at hq
        exact absurd hq (by simp)
  obtain ⟨hjq, hmin⟩ := hq'
  refine ⟨⟨q, hjq, hmin, by rw [← hform]⟩, ?_, hc, fun _ => rfl⟩
  intro q0 hq0
  rw [hq0] at hjq
  simp only [jsToNumber, Option.some.injEq] at hjq
  rw [← hform, hjq]

/-- C9 witness: the numeric quantity 2 is accepted, rendered by the
string conversion, stored as that string, and concatenated verbatim into
the prompt line. -/
theorem quantity_kept_as_string_witness :
    (∃ q, jsToNumber parseNumEx numericQuantityBody.quantity = some q ∧
      (1 : ℚ)/100 ≤ q ∧ (InventoryForm.mk "egg" "2" "pcs").quantity = numToStrEx q) ∧
    (createInventoryHandler parseNumEx numToStrEx 1 numericQuantityBody dbOneRecipe
      = (.ok ⟨1, 1, "egg", "2", "pcs"⟩,
         { dbOneRecipe with inventory := [⟨1, 1, "egg", "2", "pcs"⟩], nextInventoryId := 2 })) ∧
    formatInventoryItem ⟨1, 1, "egg", "2", "pcs"⟩ = "egg" ++ ": " ++ "2" ++ " " ++ "pcs" := by
  have h2 : zCoercedQuantity parseNumEx (Json.num 2) = .ok 2 := by
    simp only [zCoercedQuantity, jsToNumber]
    norm_num
  have h4 : numToStrEx 2 = "2" := by norm_num [numToStrEx]
  have hn : zMinString "Item name is required" (Json.str "egg") = Except.ok "egg" := by
    simp only [zMinString]
    rw [if_pos (by decide)]
  have hu : zMinString "Unit is required" (Json.str "pcs") = Except.ok "pcs" := by
    simp only [zMinString]
    rw [if_pos (by decide)]
  have hpf : inventoryFormParse parseNumEx numToStrEx numericQuantityBody
      = .ok ⟨"egg", "2", "pcs"⟩ := by
    simp [inventoryFormParse, numericQuantityBody, h2, h4, hn, hu, Bind.bind, Except.bind]
  have h := quantity_kept_as_string parseNumEx numToStrEx numericQuantityBody 1 dbOneRecipe
    ⟨"egg", "2", "pcs"⟩ hpf
  exact ⟨h.1, h.2.2.1, h.2.2.2 ⟨1, 1, "egg", "2", "pcs"⟩⟩

end Hkitchen
